import Mathlib

/-!
Shallow embedding of the data-validation core of the `ml-ops` repository
(`src/data/validation.py` and `src/data/ingestion.py`), together with
theorems settling the specification claims.

Modelling conventions:
* A pandas `DataFrame` is a `Table`: a list of column names, a parallel list
  of storage dtypes (strings such as "int64", "float64", "object"), and a
  list of rows, each row a list of cells.
* A cell is numeric (`Cell.num`, modelled over `ℚ`), textual (`Cell.str`)
  or null/NaN (`Cell.null`).  Pandas treats NaN cells as equal to each other
  in `duplicated`, `drop_duplicates` and `nunique(dropna=False)`, so a single
  `null` constructor with decidable equality is the faithful model.
* A pandas scalar that can be NaN (a percentage whose denominator can be
  zero) is an `Option ℚ`, with `none` standing for NaN; comparisons against
  NaN are false, as in Python.
* A Python expression that can raise (`int/0`, `mode()[0]` on an empty
  series, an order comparison between a string and a number) lives in
  `Except Unit`.
-/

inductive Cell where
  | num (q : ℚ)
  | str (s : String)
  | null
deriving DecidableEq, Repr

structure Table where
  colNames : List String
  dtypes : List String
  rows : List (List Cell)
deriving Repr

/-- Number of rows, `len(df)`. -/
def Table.nrows (t : Table) : Nat := t.rows.length

/-- Number of columns. -/
def Table.ncols (t : Table) : Nat := t.colNames.length

/-- The cells of column `j` of a row list, in row order. -/
def colAt (rows : List (List Cell)) (j : Nat) : List Cell :=
  rows.map (fun r => r.getD j Cell.null)

/-- The cells of column `j`, in row order (`df[column]` by position). -/
def Table.colCells (t : Table) (j : Nat) : List Cell :=
  colAt t.rows j

/-- dtype of column `j` (empty string when out of range). -/
def Table.dtypeAt (t : Table) (j : Nat) : String := t.dtypes.getD j ""

/-- Positional index of a named column, `df.columns.get_loc`. -/
def Table.colIdx (t : Table) (name : String) : Nat := t.colNames.indexOf name

/-- `column in df.columns`. -/
def Table.hasCol (t : Table) (name : String) : Bool := t.colNames.contains name

/-- dtypes counted by `df.select_dtypes(include=['number'])`. -/
def isNumericDtype (d : String) : Bool :=
  d == "int64" || d == "float64" || d == "int32" || d == "float32"

/-- dtypes counted by `df.select_dtypes(include=['object', 'category'])`. -/
def isCatDtype (d : String) : Bool :=
  d == "object" || d == "category"

/-- Positions of the numeric columns, in column order. -/
def Table.numericIdxs (t : Table) : List Nat :=
  (List.range t.ncols).filter (fun j => isNumericDtype (t.dtypeAt j))

/-- Positions of the object/category columns, in column order. -/
def Table.catIdxs (t : Table) : List Nat :=
  (List.range t.ncols).filter (fun j => isCatDtype (t.dtypeAt j))

/-! ## check_missing_values (validation.py lines 181-227) -/

/-- Per-column missing count: `df.isna().sum()` for one column. -/
def missingCount (cells : List Cell) : Nat :=
  cells.countP (fun c => c == Cell.null)

/-- `missing_percentages = (missing_counts / len(df)) * 100` for one column.
`none` is the NaN produced by `0 / 0` at zero rows. -/
def Table.colMissingPct (t : Table) (j : Nat) : Option ℚ :=
  if t.nrows = 0 then none
  else some ((missingCount (t.colCells j) : ℚ) / (t.nrows : ℚ) * 100)

structure MissingStats where
  total_missing : Nat
  total_cells : Nat
  total_missing_percentage : Option ℚ
  has_critical_missing : Bool
  missing_columns : List (String × Nat × ℚ)
deriving Repr, DecidableEq

/-- `check_missing_values`.  Note the source compares the 0-100-scaled
per-column percentages against `critical_threshold = 0.2`. -/
def checkMissingValues (t : Table) : MissingStats :=
  let totalMissing := ((List.range t.ncols).map
    (fun j => missingCount (t.colCells j))).sum
  let totalCells := t.nrows * t.ncols
  { total_missing := totalMissing
    total_cells := totalCells
    total_missing_percentage :=
      if totalCells = 0 then none
      else some ((totalMissing : ℚ) / (totalCells : ℚ))
    has_critical_missing :=
      (List.range t.ncols).any (fun j =>
        match t.colMissingPct j with
        | some p => decide (p > 1/5)
        | none => false)
    missing_columns :=
      ((List.range t.ncols).filterMap (fun j =>
        let cnt := missingCount (t.colCells j)
        if cnt > 0 then
          match t.colMissingPct j with
          | some p => some (t.colNames.getD j "", cnt, p)
          | none => none
        else none)) }

/-! ## check_duplicates (validation.py lines 230-257) -/

/-- `df.duplicated()` with the default `keep='first'`: row `i` is flagged
iff it equals some earlier row.  `seen` accumulates the rows already
passed. -/
def dupFlagsGo (seen : List (List Cell)) : List (List Cell) → List Bool
  | [] => []
  | r :: rs => (seen.contains r) :: dupFlagsGo (r :: seen) rs

def dupFlags (rows : List (List Cell)) : List Bool := dupFlagsGo [] rows

structure DuplicateStats where
  has_duplicates : Bool
  duplicate_count : Nat
  duplicate_percentage : Option ℚ
  duplicate_indexes : List Nat
deriving Repr, DecidableEq

/-- `check_duplicates`.  The percentage is NaN (`none`) at zero rows,
as `np.int64(0) / 0` yields NaN rather than raising. -/
def checkDuplicates (t : Table) : DuplicateStats :=
  let flags := dupFlags t.rows
  let cnt := flags.count true
  { has_duplicates := decide (cnt > 0)
    duplicate_count := cnt
    duplicate_percentage :=
      if t.nrows = 0 then none else some ((cnt : ℚ) / (t.nrows : ℚ))
    duplicate_indexes := (List.range t.nrows).filter (fun i => flags.getD i false) }

/-! ## check_outliers (validation.py lines 260-316) -/

/-- The numeric values of a column, nulls dropped (pandas skips NaN). -/
def nonNullNums (cells : List Cell) : List ℚ :=
  cells.filterMap (fun c => match c with | Cell.num q => some q | _ => none)

/-- `Series.quantile(p)` with the default linear interpolation: on the
sorted non-null values `x_0 ≤ … ≤ x_{n-1}`, the virtual index is
`h = p * (n - 1)` and the result `x_⌊h⌋ + (h - ⌊h⌋) * (x_{⌊h⌋+1} - x_⌊h⌋)`.
`none` is the NaN returned for an empty (or all-NaN) series. -/
def seriesQuantile (cells : List Cell) (p : ℚ) : Option ℚ :=
  let xs := List.insertionSort (· ≤ ·) (nonNullNums cells)
  match xs with
  | [] => none
  | _ :: _ =>
    let n := xs.length
    let h := p * ((n : ℚ) - 1)
    let lo := (Int.floor h).toNat
    let hi := min (lo + 1) (n - 1)
    some (xs.getD lo 0 + (h - (lo : ℚ)) * (xs.getD hi 0 - xs.getD lo 0))

/-- IQR bounds `(q1 - 1.5*iqr, q3 + 1.5*iqr)`; `none` when the quantiles
are NaN (no numeric values). -/
def colBounds (cells : List Cell) : Option (ℚ × ℚ) :=
  match seriesQuantile cells (1/4), seriesQuantile cells (3/4) with
  | some q1, some q3 => some (q1 - 3/2 * (q3 - q1), q3 + 3/2 * (q3 - q1))
  | _, _ => none

/-- `(df[column] < lower_bound) | (df[column] > upper_bound)`: strict on
both sides, false on NaN. -/
def isOutlierCell (lb ub : ℚ) (c : Cell) : Bool :=
  match c with
  | Cell.num v => decide (v < lb) || decide (ub < v)
  | _ => false

/-- Outlier count of one column; comparisons against NaN bounds select
nothing, matching pandas when the column has no numeric values. -/
def colOutlierCount (cells : List Cell) : Nat :=
  match colBounds cells with
  | some (lb, ub) => cells.countP (isOutlierCell lb ub)
  | none => 0

structure OutlierColStat where
  count : Nat
  percentage : ℚ
  lower_bound : ℚ
  upper_bound : ℚ
  min_value : ℚ
  max_value : ℚ
deriving Repr, DecidableEq

structure OutlierStats where
  total_outliers : Nat
  outlier_percentage : ℚ
  outlier_columns : List (String × OutlierColStat)
deriving Repr, DecidableEq

/-- Per-column detail record, built only when the count is positive. -/
def colOutlierStat (t : Table) (j : Nat) : Option (String × OutlierColStat) :=
  let cells := t.colCells j
  let cnt := colOutlierCount cells
  if cnt > 0 then
    match colBounds cells with
    | some (lb, ub) => some (t.colNames.getD j "",
        { count := cnt
          percentage := (cnt : ℚ) / (t.nrows : ℚ)
          lower_bound := lb
          upper_bound := ub
          min_value := ((nonNullNums cells).min?).getD 0
          max_value := ((nonNullNums cells).max?).getD 0 })
    | none => none
  else none

/-- `check_outliers`.  The aggregate percentage guards only the
zero-numeric-columns case; with numeric columns present and zero rows the
plain-int division `total_outliers / (len(df) * len(numeric_columns))`
raises `ZeroDivisionError`, modelled as `Except.error`. -/
def checkOutliers (t : Table) : Except Unit OutlierStats :=
  let idxs := t.numericIdxs
  let total := (idxs.map (fun j => colOutlierCount (t.colCells j))).sum
  let cols := idxs.filterMap (fun j => colOutlierStat t j)
  if idxs.length > 0 then
    if t.nrows = 0 then Except.error ()
    else Except.ok
      { total_outliers := total
        outlier_percentage := (total : ℚ) / ((t.nrows * idxs.length : ℕ) : ℚ)
        outlier_columns := cols }
  else Except.ok
    { total_outliers := total, outlier_percentage := 0, outlier_columns := cols }

/-! ## validate_data_quality (validation.py lines 135-178) -/

/-- The quality scorer.  `min(30, nan)` is `30` in Python (the comparison
`nan < 30` is false, so `min` keeps its first argument); the `none`
branches reproduce that. -/
def qualityScore (m : MissingStats) (d : DuplicateStats) (o : OutlierStats) : ℚ :=
  let s1 : ℚ := 100 - (match m.total_missing_percentage with
    | some f => min 30 (f * 100)
    | none => 30)
  let s2 : ℚ := s1 - (if d.has_duplicates then
      (match d.duplicate_percentage with
       | some f => min 20 (f * 100)
       | none => 20)
    else 0)
  s2 - (if o.total_outliers > 0 then min 20 (o.outlier_percentage * 10) else 0)

structure QualityResults where
  quality_score : ℚ
  missing_values : MissingStats
  duplicates : DuplicateStats
  outliers : OutlierStats
deriving Repr

def validateDataQuality (t : Table) : Except Unit QualityResults := do
  let m := checkMissingValues t
  let d := checkDuplicates t
  let o ← checkOutliers t
  Except.ok ⟨qualityScore m d o, m, d, o⟩

/-! ## validate_schema (validation.py lines 21-132) -/

/-- One schema entry: the property dictionary of a column. -/
structure ColProps where
  type? : Option String := none
  required : Bool := false
  min? : Option ℚ := none
  max? : Option ℚ := none
  allowed_values? : Option (List String) := none
  unique : Bool := false
deriving Repr, DecidableEq

abbrev Schema := List (String × ColProps)

inductive Issue where
  | missing_required_columns (cols : List String)
  | missing_optional_column (col : String)
  | wrong_data_type (col : String) (expected : String) (actual : String)
  | out_of_range (col : String) (isMin : Bool) (bound : ℚ) (observed : ℚ)
  | invalid_categorical_values (col : String) (vals : List Cell)
  | uniqueness_violation (col : String)
deriving Repr, DecidableEq

/-- `type_mapping.get(expected_type, [expected_type])`. -/
def typeMapping (et : String) : List String :=
  if et == "numeric" then ["int64", "float64", "int32", "float32"]
  else if et == "string" then ["object", "string"]
  else if et == "datetime" then ["datetime64", "datetime64[ns]"]
  else if et == "boolean" then ["bool"]
  else if et == "category" then ["category"]
  else [et]

def isStrCell (c : Cell) : Bool :=
  match c with | Cell.str _ => true | _ => false

/-- The range checks raise `TypeError` exactly when the schema kind is
numeric, at least one bound is set, and the column holds a non-null string
(pandas `min`/`max` raise on a mixed column; an all-string extremum raises
at the order comparison with the numeric bound).  The exception wipes every
issue of the `validate_schema` call, so raising before or after the type
check is observably the same. -/
def rangeCheckRaises (cells : List Cell) (props : ColProps) : Bool :=
  props.type? == some "numeric" && (props.min?.isSome || props.max?.isSome)
    && cells.any isStrCell

/-- `if min_value is not None and df[column].min() < min_value` on a
string-free column: nulls are skipped and an all-null minimum is NaN,
whose comparison is false. -/
def minRangeIssues (column : String) (cells : List Cell) (props : ColProps) :
    List Issue :=
  if props.type? == some "numeric" then
    match props.min? with
    | some m =>
        match (nonNullNums cells).min? with
        | some v => if v < m then [Issue.out_of_range column true m v] else []
        | none => []
    | none => []
  else []

/-- Symmetric check against `max_value`. -/
def maxRangeIssues (column : String) (cells : List Cell) (props : ColProps) :
    List Issue :=
  if props.type? == some "numeric" then
    match props.max? with
    | some m =>
        match (nonNullNums cells).max? with
        | some v => if m < v then [Issue.out_of_range column false m v] else []
        | none => []
    | none => []
  else []

/-- `Series.is_unique`, i.e. `nunique(dropna=False) == len(self)`: all
values pairwise distinct, with every NaN identified as one value. -/
def seriesIsUnique (cells : List Cell) : Bool :=
  decide cells.Nodup

/-- The type-conformance issues of one column. -/
def typeIssues (column : String) (actual : String) (props : ColProps) :
    List Issue :=
  match props.type? with
  | some et =>
      if (typeMapping et).contains actual then []
      else [Issue.wrong_data_type column et actual]
  | none => []

/-- `set(df[column].dropna().unique()) - set(allowed_values)`: the distinct
non-null values outside the allowed set (a non-string value in an object
column is never allowed). -/
def catInvalid (cells : List Cell) (allowed : List String) : List Cell :=
  ((cells.filter (fun c => !(c == Cell.null))).dedup).filter (fun c =>
    match c with
    | Cell.str s => !(allowed.contains s)
    | _ => true)

/-- The categorical allowed-values issues of one column: distinct non-null
values outside the allowed set, reported together. -/
def catIssues (column : String) (cells : List Cell) (props : ColProps) :
    List Issue :=
  if props.type? == some "string" || props.type? == some "category" then
    match props.allowed_values? with
    | some allowed =>
        if (catInvalid cells allowed).isEmpty then []
        else [Issue.invalid_categorical_values column (catInvalid cells allowed)]
    | none => []
  else []

/-- The uniqueness issues of one column. -/
def uniqIssues (column : String) (cells : List Cell) (props : ColProps) :
    List Issue :=
  if props.unique then
    if seriesIsUnique cells then [] else [Issue.uniqueness_violation column]
  else []

/-- The issues contributed by a single schema entry, in source emission
order: missing-optional, type, range-min, range-max, categorical,
uniqueness. -/
def colCheckIssues (t : Table) (column : String) (props : ColProps) :
    Except Unit (List Issue) :=
  if t.hasCol column = false then
    if props.required then Except.ok []
    else Except.ok [Issue.missing_optional_column column]
  else
    let cells := t.colCells (t.colIdx column)
    if rangeCheckRaises cells props then Except.error ()
    else Except.ok
      (typeIssues column (t.dtypeAt (t.colIdx column)) props
        ++ minRangeIssues column cells props
        ++ maxRangeIssues column cells props
        ++ catIssues column cells props
        ++ uniqIssues column cells props)

/-- Required schema columns absent from the table. -/
def requiredMissing (t : Table) (schema : Schema) : List String :=
  ((schema.filter (fun cp => cp.2.required)).map Prod.fst).filter
    (fun c => !(t.hasCol c))

/-- `validate_schema`: the batched missing-required issue first, then the
per-column blocks in schema order; `is_valid = len(issues) == 0`. -/
def validateSchema (t : Table) (schema : Schema) :
    Except Unit (Bool × List Issue) := do
  let req := requiredMissing t schema
  let reqIssues := if req.isEmpty then [] else [Issue.missing_required_columns req]
  let colBlocks ← schema.mapM (fun cp => colCheckIssues t cp.1 cp.2)
  let issues := reqIssues ++ colBlocks.flatten
  Except.ok (issues.isEmpty, issues)

/-! ## DataIngestion.validate_data (ingestion.py lines 147-198) -/

structure ValidationResults where
  schema_valid : Bool
  schema_issues : List Issue
  missing_values : MissingStats
  duplicates : DuplicateStats
  outliers : OutlierStats
deriving Repr

def validateData (t : Table) (schema : Schema) :
    Except Unit (Bool × ValidationResults) := do
  let sv ← validateSchema t schema
  let m := checkMissingValues t
  let d := checkDuplicates t
  let o ← checkOutliers t
  let isValid := sv.1 && !m.has_critical_missing && !d.has_duplicates
  Except.ok (isValid, ⟨sv.1, sv.2, m, d, o⟩)

/-! ## DataIngestion.preprocess_data (ingestion.py lines 200-263) -/

/-- `df.drop_duplicates()` with the default `keep='first'`: keep a row iff
no equal row occurred before it. -/
def dedupRowsGo (seen : List (List Cell)) : List (List Cell) → List (List Cell)
  | [] => []
  | r :: rs =>
      if seen.contains r then dedupRowsGo seen rs
      else r :: dedupRowsGo (r :: seen) rs

def dedupRows (rows : List (List Cell)) : List (List Cell) := dedupRowsGo [] rows

/-- `Series.median()`: middle of the sorted non-null values, the mean of
the two middles at even length; NaN (`none`) when no values remain. -/
def seriesMedian (cells : List Cell) : Option ℚ :=
  let xs := List.insertionSort (· ≤ ·) (nonNullNums cells)
  match xs with
  | [] => none
  | _ :: _ =>
    let n := xs.length
    if n % 2 = 1 then some (xs.getD (n / 2) 0)
    else some ((xs.getD (n / 2 - 1) 0 + xs.getD (n / 2) 0) / 2)

/-- Ascending order used by `Series.mode()` when it sorts the maximal
values; on the mixed numeric/string case (where pandas would raise inside
its sort) numerics are placed first. -/
def cellLtB (a b : Cell) : Bool :=
  match a, b with
  | Cell.num x, Cell.num y => decide (x < y)
  | Cell.num _, Cell.str _ => true
  | Cell.str x, Cell.str y => decide (x < y)
  | _, _ => false

/-- Accumulator picking the least candidate in `cellLtB` order. -/
def modePick (acc : Option Cell) (c : Cell) : Option Cell :=
  match acc with
  | none => some c
  | some a => if cellLtB c a then some c else acc

/-- `Series.mode()[0]`: among the non-null values of maximal frequency,
the least in ascending order; `none` when the series has no non-null value
(pandas returns an empty mode series and `[0]` raises `KeyError`). -/
def seriesModeFirst (cells : List Cell) : Option Cell :=
  let nn := cells.filter (fun c => !(c == Cell.null))
  match nn with
  | [] => none
  | _ :: _ =>
    let maxFreq := ((nn.map (fun c => nn.count c)).max?).getD 0
    (nn.dedup.filter (fun c => nn.count c == maxFreq)).foldl modePick none

/-- `fillna(v)` on column `j`. -/
def fillColNulls (rows : List (List Cell)) (j : Nat) (v : Cell) :
    List (List Cell) :=
  rows.map (fun r => if r.getD j Cell.null == Cell.null then r.set j v else r)

/-- One iteration of the numeric median-imputation loop. -/
def fillNumStep (rows : List (List Cell)) (j : Nat) : List (List Cell) :=
  if missingCount (colAt rows j) > 0 then
    match seriesMedian (colAt rows j) with
    | some m => fillColNulls rows j (Cell.num m)
    | none => rows
  else rows

/-- One iteration of the categorical mode-imputation loop; `mode()[0]` on
an all-null column raises, modelled as `Except.error`. -/
def fillCatStep (rows : List (List Cell)) (j : Nat) :
    Except Unit (List (List Cell)) :=
  if missingCount (colAt rows j) > 0 then
    match seriesModeFirst (colAt rows j) with
    | some m => Except.ok (fillColNulls rows j m)
    | none => Except.error ()
  else Except.ok rows

/-- One iteration of the outlier-capping loop: `clip(lower, upper)` on the
IQR bounds recomputed from the current column; NaN bounds (no numeric
values) leave the column unchanged, as pandas `clip` ignores NaN
thresholds. -/
def clipStep (rows : List (List Cell)) (j : Nat) : List (List Cell) :=
  match colBounds (colAt rows j) with
  | some (lb, ub) => rows.map (fun r =>
      match r.getD j Cell.null with
      | Cell.num v => r.set j (Cell.num (min (max v lb) ub))
      | _ => r)
  | none => rows

/-- `DataIngestion.preprocess_data`. -/
def preprocessData (t : Table)
    (dropDuplicates handleMissing handleOutliers : Bool) :
    Except Unit Table := do
  let rows1 := if dropDuplicates then dedupRows t.rows else t.rows
  let rows2 := if handleMissing then t.numericIdxs.foldl fillNumStep rows1
    else rows1
  let rows3 ← if handleMissing then t.catIdxs.foldlM fillCatStep rows2
    else Except.ok rows2
  let rows4 := if handleOutliers then t.numericIdxs.foldl clipStep rows3
    else rows3
  Except.ok ⟨t.colNames, t.dtypes, rows4⟩

/-! ## Concrete tables and schemas used by the claim theorems -/

/-- One numeric column, 10 rows, a single null: the column misses 10% of
its values. -/
def tMissTen : Table := ⟨["a"], ["float64"],
  [[Cell.null], [Cell.num 1], [Cell.num 2], [Cell.num 3], [Cell.num 4],
   [Cell.num 5], [Cell.num 6], [Cell.num 7], [Cell.num 8], [Cell.num 9]]⟩

/-- Four rows, two columns, exactly one null cell: 12.5% of all cells,
25% of column `a`. -/
def tMissFour : Table := ⟨["a", "b"], ["float64", "float64"],
  [[Cell.num 1, Cell.num 1], [Cell.null, Cell.num 2],
   [Cell.num 3, Cell.num 3], [Cell.num 4, Cell.num 4]]⟩

/-- The outlier example column `[1, 2, 3, 4, 5, 100]`. -/
def tOutSix : Table := ⟨["x"], ["float64"],
  [[Cell.num 1], [Cell.num 2], [Cell.num 3], [Cell.num 4], [Cell.num 5],
   [Cell.num 100]]⟩

/-- The duplicate example rows `[A, B, A, A, C]`. -/
def tDupFive : Table := ⟨["v"], ["int64"],
  [[Cell.num 1], [Cell.num 2], [Cell.num 1], [Cell.num 1], [Cell.num 3]]⟩

/-- A table valid against `schemaOptional` except for one absent optional
column. -/
def tOneIntCol : Table := ⟨["a"], ["int64"], [[Cell.num 1]]⟩

/-- A schema whose only entry is an optional column. -/
def schemaOptional : Schema := [("extra", {})]

/-- A `unique`-flagged float column whose only repeated values are nulls. -/
def tUniqueNulls : Table := ⟨["u"], ["float64"],
  [[Cell.num 1], [Cell.null], [Cell.null]]⟩

def schemaUnique : Schema := [("u", { type? := some "numeric", unique := true })]

/-- Zero rows, one numeric column. -/
def tEmptyNumCol : Table := ⟨["x"], ["float64"], []⟩

/-- One row, no numeric column, with a missing cell. -/
def tStrOnly : Table := ⟨["s"], ["object"], [[Cell.str "a"]]⟩

/-- A textual column that is entirely null. -/
def tAllNullStr : Table := ⟨["s"], ["object"], [[Cell.null], [Cell.null]]⟩

/-! ## Helper lemmas -/

@[simp] theorem Cell.beq_num_null (q : ℚ) : (Cell.num q == Cell.null) = false := rfl

@[simp] theorem Cell.beq_str_null (s : String) : (Cell.str s == Cell.null) = false := rfl

@[simp] theorem Cell.beq_null_null : (Cell.null == Cell.null) = true := rfl

@[simp] theorem Cell.num_ne_null (q : ℚ) : Cell.num q ≠ Cell.null :=
  fun h => Cell.noConfusion h

@[simp] theorem Cell.str_ne_null (s : String) : Cell.str s ≠ Cell.null :=
  fun h => Cell.noConfusion h

@[simp] theorem Cell.null_ne_num (q : ℚ) : Cell.null ≠ Cell.num q :=
  fun h => Cell.noConfusion h

/-! ## Claim theorems -/

/-- C3: for all stats records with well-defined non-negative fractions,
the quality score is 100 minus `min 30 (missing_fraction*100)`, minus
`min 20 (duplicate_fraction*100)` when duplicates are flagged, minus
`min 20 (outlier_fraction*10)` when outliers were counted, and the result
lies in [0, 100]; 10% missing alone scores 90, adding 5% duplicates gives
85, and a 50% outlier fraction alone gives 95. -/
theorem qualityScore_formula_and_bounds (m : MissingStats) (d : DuplicateStats)
    (o : OutlierStats) (fm fd : ℚ)
    (hm : m.total_missing_percentage = some fm) (hm0 : 0 ≤ fm)
    (hd : d.duplicate_percentage = some fd) (hd0 : 0 ≤ fd)
    (ho0 : 0 ≤ o.outlier_percentage) :
    (qualityScore m d o =
      100 - min 30 (fm * 100)
        - (if d.has_duplicates then min 20 (fd * 100) else 0)
        - (if o.total_outliers > 0 then min 20 (o.outlier_percentage * 10) else 0))
    ∧ 0 ≤ qualityScore m d o ∧ qualityScore m d o ≤ 100
    ∧ qualityScore ⟨1, 10, some (1/10), false, []⟩ ⟨false, 0, some 0, []⟩ ⟨0, 0, []⟩ = 90
    ∧ qualityScore ⟨1, 10, some (1/10), false, []⟩ ⟨true, 1, some (1/20), [1]⟩ ⟨0, 0, []⟩ = 85
    ∧ qualityScore ⟨0, 10, some 0, false, []⟩ ⟨false, 0, some 0, []⟩ ⟨1, 1/2, []⟩ = 95 := by
  have e : qualityScore m d o =
      100 - min 30 (fm * 100)
        - (if d.has_duplicates then min 20 (fd * 100) else 0)
        - (if o.total_outliers > 0 then min 20 (o.outlier_percentage * 10) else 0) := by
    simp only [qualityScore, hm, hd]
  have c1 := min_le_left (30:ℚ) (fm * 100)
  have c2 := min_le_left (20:ℚ) (fd * 100)
  have c3 := min_le_left (20:ℚ) (o.outlier_percentage * 10)
  have n1 : (0:ℚ) ≤ min 30 (fm * 100) := le_min (by norm_num) (by positivity)
  have n2 : (0:ℚ) ≤ min 20 (fd * 100) := le_min (by norm_num) (by positivity)
  have n3 : (0:ℚ) ≤ min 20 (o.outlier_percentage * 10) :=
    le_min (by norm_num) (by positivity)
  refine ⟨e, ?_, ?_, by norm_num [qualityScore], by norm_num [qualityScore],
    by norm_num [qualityScore]⟩
  · rw [e]; split_ifs <;> linarith
  · rw [e]; split_ifs <;> linarith

/-- Witness for C3 at the 10%-missing example. -/
theorem qualityScore_formula_and_bounds_witness :
    (qualityScore ⟨1, 10, some (1/10), false, []⟩ ⟨false, 0, some 0, []⟩ ⟨0, 0, []⟩ =
      100 - min 30 ((1/10 : ℚ) * 100)
        - (if DuplicateStats.has_duplicates ⟨false, 0, some 0, []⟩ then
            min 20 ((0 : ℚ) * 100) else 0)
        - (if OutlierStats.total_outliers ⟨0, 0, []⟩ > 0 then
            min 20 (OutlierStats.outlier_percentage ⟨0, 0, []⟩ * 10) else 0))
    ∧ 0 ≤ qualityScore ⟨1, 10, some (1/10), false, []⟩ ⟨false, 0, some 0, []⟩ ⟨0, 0, []⟩
    ∧ qualityScore ⟨1, 10, some (1/10), false, []⟩ ⟨false, 0, some 0, []⟩ ⟨0, 0, []⟩ ≤ 100
    ∧ qualityScore ⟨1, 10, some (1/10), false, []⟩ ⟨false, 0, some 0, []⟩ ⟨0, 0, []⟩ = 90
    ∧ qualityScore ⟨1, 10, some (1/10), false, []⟩ ⟨true, 1, some (1/20), [1]⟩ ⟨0, 0, []⟩ = 85
    ∧ qualityScore ⟨0, 10, some 0, false, []⟩ ⟨false, 0, some 0, []⟩ ⟨1, 1/2, []⟩ = 95 :=
  qualityScore_formula_and_bounds ⟨1, 10, some (1/10), false, []⟩
    ⟨false, 0, some 0, []⟩ ⟨0, 0, []⟩ (1/10) 0 rfl (by norm_num) rfl le_rfl le_rfl

/-- C2 (code bug): `check_missing_values` scales the per-column missing
percentages to 0-100 but compares them against `critical_threshold = 0.2`,
so a column whose missing fraction is 1/10 — below the documented 20%
threshold — is still flagged critical; the spec example table (4 rows, 2
columns, one null) is flagged as well. -/
theorem has_critical_missing_fires_below_twenty_percent :
    (missingCount (tMissTen.colCells 0) : ℚ) / (tMissTen.nrows : ℚ) = 1/10
    ∧ ¬ ((1:ℚ)/10 > 1/5)
    ∧ (checkMissingValues tMissTen).has_critical_missing = true
    ∧ (checkMissingValues tMissFour).has_critical_missing = true := by
  refine ⟨?_, by norm_num, ?_, ?_⟩
  · norm_num [tMissTen, Table.colCells, colAt, Table.nrows, missingCount,
      List.countP_cons, List.countP_nil]
  · norm_num [checkMissingValues, tMissTen, Table.colMissingPct, Table.nrows,
      Table.ncols, missingCount, Table.colCells, colAt, List.range_succ,
      List.countP_cons, List.countP_nil]
  · norm_num [checkMissingValues, tMissFour, Table.colMissingPct, Table.nrows,
      Table.ncols, missingCount, Table.colCells, colAt, List.range_succ,
      List.countP_cons, List.countP_nil]

/-- C6: on the column `[1,2,3,4,5,100]` the linear-interpolation quantiles
are Q1 = 2.25 and Q3 = 4.75, the IQR bounds are [-1.5, 8.5], and 100 is the
sole outlier; in general a cell counts as an outlier iff its value is
strictly below the lower bound or strictly above the upper bound (nulls
never count), and the per-column count is the number of such cells. -/
theorem checkOutliers_iqr_linear_interpolation :
    seriesQuantile (tOutSix.colCells 0) (1/4) = some (9/4)
    ∧ seriesQuantile (tOutSix.colCells 0) (3/4) = some (19/4)
    ∧ colBounds (tOutSix.colCells 0) = some (-(3/2), 17/2)
    ∧ (∀ lb ub v : ℚ, isOutlierCell lb ub (Cell.num v) = true ↔ (v < lb ∨ ub < v))
    ∧ (∀ lb ub : ℚ, isOutlierCell lb ub Cell.null = false)
    ∧ (∀ cells : List Cell, ∀ lb ub : ℚ,
        cells.countP (isOutlierCell lb ub) =
          (cells.filter (fun c => isOutlierCell lb ub c)).length)
    ∧ checkOutliers tOutSix = Except.ok ⟨1, 1/6,
        [("x", ⟨1, 1/6, -(3/2), 17/2, 1, 100⟩)]⟩ := by
  have hcol : tOutSix.colCells 0 = [Cell.num 1, Cell.num 2, Cell.num 3,
      Cell.num 4, Cell.num 5, Cell.num 100] := by
    norm_num [tOutSix, Table.colCells, colAt]
  have hq1 : seriesQuantile (tOutSix.colCells 0) (1/4) = some (9/4) := by
    rw [hcol]
    norm_num [seriesQuantile, nonNullNums, List.filterMap_cons,
      List.insertionSort, List.orderedInsert, Nat.min_def,
      show Int.toNat 1 = 1 from rfl]
  have hq3 : seriesQuantile (tOutSix.colCells 0) (3/4) = some (19/4) := by
    rw [hcol]
    norm_num [seriesQuantile, nonNullNums, List.filterMap_cons,
      List.insertionSort, List.orderedInsert, Nat.min_def,
      show Int.toNat 3 = 3 from rfl]
  have hb : colBounds (tOutSix.colCells 0) = some (-(3/2), 17/2) := by
    rw [colBounds, hq1, hq3]; norm_num
  have hcnt : colOutlierCount (tOutSix.colCells 0) = 1 := by
    rw [colOutlierCount, hb, hcol]
    norm_num [isOutlierCell, List.countP_cons, List.countP_nil]
  have hmin : (nonNullNums (tOutSix.colCells 0)).min? = some 1 := by
    rw [hcol]
    norm_num [nonNullNums, List.filterMap_cons, List.min?, List.foldl_cons]
  have hmax : (nonNullNums (tOutSix.colCells 0)).max? = some 100 := by
    rw [hcol]
    norm_num [nonNullNums, List.filterMap_cons, List.max?, List.foldl_cons]
  have hstat : colOutlierStat tOutSix 0 =
      some ("x", ⟨1, 1/6, -(3/2), 17/2, 1, 100⟩) := by
    rw [colOutlierStat, hcnt, hb, hmin, hmax]
    norm_num [tOutSix, Table.nrows]
  have hidx : tOutSix.numericIdxs = [0] := by
    norm_num [Table.numericIdxs, tOutSix, Table.ncols, Table.dtypeAt,
      isNumericDtype, List.range_succ]
  have hn : tOutSix.nrows = 6 := rfl
  refine ⟨hq1, hq3, hb, ?_, fun lb ub => rfl, ?_, ?_⟩
  · intro lb ub v
    simp [isOutlierCell]
  · intro cells lb ub
    simp [List.countP_eq_length_filter]
  · rw [checkOutliers, hidx]
    simp only [List.length_cons, List.length_nil, List.map_cons, List.map_nil,
      List.sum_cons, List.sum_nil, List.filterMap_cons, List.filterMap_nil,
      hcnt, hstat, hn]
    norm_num

/-- Length of the duplicate flags equals the number of rows. -/
theorem dupFlagsGo_length (rows : List (List Cell)) :
    ∀ seen : List (List Cell), (dupFlagsGo seen rows).length = rows.length := by
  induction rows with
  | nil => intro seen; rfl
  | cons r rs ih => intro seen; simp [dupFlagsGo, ih]

/-- `dupFlagsGo seen rows` flags position `i` iff the row equals a member
of `seen` or an earlier row of `rows`. -/
theorem dupFlagsGo_getD_iff (rows : List (List Cell)) :
    ∀ (seen : List (List Cell)) (i : Nat), i < rows.length →
    ((dupFlagsGo seen rows).getD i false = true ↔
      (rows.getD i [] ∈ seen ∨ ∃ j, j < i ∧ rows.getD j [] = rows.getD i [])) := by
  induction rows with
  | nil => intro seen i h; simp at h
  | cons r rs ih =>
    intro seen i h
    cases i with
    | zero =>
      simp [dupFlagsGo, List.getD_cons_zero, List.elem_iff]
    | succ k =>
      simp only [dupFlagsGo, List.getD_cons_succ]
      rw [ih (r :: seen) k (by simpa using h)]
      constructor
      · rintro (h1 | ⟨j, hj, hje⟩)
        · rcases List.mem_cons.mp h1 with h2 | h2
          · exact Or.inr ⟨0, Nat.succ_pos k, by simpa using h2.symm⟩
          · exact Or.inl h2
        · exact Or.inr ⟨j + 1, by omega, by simpa using hje⟩
      · rintro (h1 | ⟨j, hj, hje⟩)
        · exact Or.inl (List.mem_cons_of_mem r h1)
        · cases j with
          | zero => exact Or.inl (by
              simp only [List.getD_cons_zero] at hje
              exact hje ▸ List.mem_cons_self r seen)
          | succ j2 => exact Or.inr ⟨j2, by omega, by simpa using hje⟩

/-- C7: a row is flagged duplicate iff it is cell-for-cell equal to some
earlier row (first occurrences are never flagged); the reported indexes are
exactly the flagged positions, in ascending order, with their count and
the count/row-count percentage; on rows `[A, B, A, A, C]` this yields
positions [2, 3], count 2, percentage 2/5. -/
theorem checkDuplicates_marks_later_occurrences (rows : List (List Cell))
    (i : Nat) (hi : i < rows.length) (t : Table) (ht : 0 < t.nrows) :
    ((dupFlags rows).getD i false = true ↔
      ∃ j, j < i ∧ rows.getD j [] = rows.getD i [])
    ∧ List.Pairwise (· < ·) (checkDuplicates t).duplicate_indexes
    ∧ (∀ k : Nat, k ∈ (checkDuplicates t).duplicate_indexes ↔
        (k < t.nrows ∧ (dupFlags t.rows).getD k false = true))
    ∧ (checkDuplicates t).duplicate_count = (dupFlags t.rows).count true
    ∧ (checkDuplicates t).duplicate_percentage =
        some (((checkDuplicates t).duplicate_count : ℚ) / (t.nrows : ℚ))
    ∧ checkDuplicates tDupFive = ⟨true, 2, some (2/5), [2, 3]⟩ := by
  refine ⟨?_, ?_, ?_, rfl, ?_, ?_⟩
  · rw [dupFlags, dupFlagsGo_getD_iff rows [] i hi]
    simp
  · exact List.Pairwise.sublist (List.filter_sublist _) (List.pairwise_lt_range _)
  · intro k
    simp [checkDuplicates, List.mem_filter, List.mem_range]
  · simp only [checkDuplicates]
    rw [if_neg (by omega)]
  · norm_num [checkDuplicates, dupFlags, dupFlagsGo, Table.nrows, tDupFive,
      List.range_succ]

/-- Witness for C7 on the `[A, B, A, A, C]` table at position 2. -/
theorem checkDuplicates_marks_later_occurrences_witness :
    ((dupFlags tDupFive.rows).getD 2 false = true ↔
      ∃ j, j < 2 ∧ tDupFive.rows.getD j [] = tDupFive.rows.getD 2 [])
    ∧ List.Pairwise (· < ·) (checkDuplicates tDupFive).duplicate_indexes
    ∧ (∀ k : Nat, k ∈ (checkDuplicates tDupFive).duplicate_indexes ↔
        (k < tDupFive.nrows ∧ (dupFlags tDupFive.rows).getD k false = true))
    ∧ (checkDuplicates tDupFive).duplicate_count =
        (dupFlags tDupFive.rows).count true
    ∧ (checkDuplicates tDupFive).duplicate_percentage =
        some (((checkDuplicates tDupFive).duplicate_count : ℚ) / (tDupFive.nrows : ℚ))
    ∧ checkDuplicates tDupFive = ⟨true, 2, some (2/5), [2, 3]⟩ :=
  checkDuplicates_marks_later_occurrences tDupFive.rows 2
    (by norm_num [tDupFive]) tDupFive (by norm_num [tDupFive, Table.nrows])

/-- C1 counterexample: a schema whose only entry is an absent optional
column yields exactly one `missing_optional_column` issue — no issue of
any other kind — yet `is_valid` is `false`, because the source computes
`is_valid = len(issues) == 0` over all issues. -/
theorem validateSchema_optional_column_fails :
    validateSchema tOneIntCol schemaOptional =
      Except.ok (false, [Issue.missing_optional_column "extra"])
    ∧ (∀ i ∈ [Issue.missing_optional_column "extra"],
        ∃ c, i = Issue.missing_optional_column c) := by
  constructor
  · rfl
  · intro i hi
    simp at hi
    exact ⟨"extra", hi⟩

/-- C1 (amended): whenever `validate_schema` returns, its `is_valid` is
true iff the issue list is empty — every issue kind fails validation,
`missing_optional_column` included. -/
theorem validateSchema_ok_valid_iff (t : Table) (s : Schema) (v : Bool)
    (issues : List Issue) (h : validateSchema t s = Except.ok (v, issues)) :
    v = true ↔ issues = [] := by
  unfold validateSchema at h
  cases hm : s.mapM (fun cp => colCheckIssues t cp.1 cp.2) with
  | error e => rw [hm] at h; simp [Bind.bind, Except.bind] at h
  | ok blocks =>
    rw [hm] at h
    simp only [Bind.bind, Except.bind, Except.ok.injEq, Prod.mk.injEq] at h
    obtain ⟨hv, hi⟩ := h
    subst hi
    rw [← hv]
    simp [List.isEmpty_iff]

/-- Witness for the amended C1 at the optional-column example. -/
theorem validateSchema_ok_valid_iff_witness :
    (false = true ↔ ([Issue.missing_optional_column "extra"] : List Issue) = []) :=
  validateSchema_ok_valid_iff tOneIntCol schemaOptional false
    [Issue.missing_optional_column "extra"] rfl

/-- `List.mapM` over `Except` returning `ok` determines membership of the
flattened result blockwise. -/
theorem mapM_ok_flatten_mem {α β : Type} (f : α → Except Unit (List β)) :
    ∀ (s : List α) (blocks : List (List β)), s.mapM f = Except.ok blocks →
    ∀ x : β, (x ∈ blocks.flatten ↔ ∃ a ∈ s, ∃ b, f a = Except.ok b ∧ x ∈ b) := by
  intro s
  induction s with
  | nil =>
    intro blocks h x
    simp only [List.mapM_nil, pure, Except.pure, Except.ok.injEq] at h
    subst h
    simp
  | cons a as ih =>
    intro blocks h x
    rw [List.mapM_cons] at h
    cases hfa : f a with
    | error e => rw [hfa] at h; simp [Bind.bind, Except.bind] at h
    | ok b =>
      rw [hfa] at h
      cases hrest : as.mapM f with
      | error e => rw [hrest] at h; simp [Bind.bind, Except.bind] at h
      | ok bs =>
        rw [hrest] at h
        simp only [Bind.bind, Except.bind, pure, Except.pure, Except.ok.injEq] at h
        subst h
        simp only [List.flatten_cons, List.mem_append, ih bs hrest x,
          List.mem_cons]
        constructor
        · rintro (hxb | ⟨a2, ha2, b2, hok2, hxb2⟩)
          · exact ⟨a, Or.inl rfl, b, hfa, hxb⟩
          · exact ⟨a2, Or.inr ha2, b2, hok2, hxb2⟩
        · rintro ⟨a2, ha2 | ha2, b2, hok2, hxb2⟩
          · subst ha2
            rw [hfa] at hok2
            injection hok2 with hb
            subst hb
            exact Or.inl hxb2
          · exact Or.inr ⟨a2, ha2, b2, hok2, hxb2⟩

/-- If `mapM` over `Except` succeeds, it succeeds on every element. -/
theorem mapM_ok_forall {α β : Type} (f : α → Except Unit β) :
    ∀ (s : List α) (bs : List β), s.mapM f = Except.ok bs →
    ∀ a ∈ s, ∃ b, f a = Except.ok b := by
  intro s
  induction s with
  | nil => intro bs h a ha; simp at ha
  | cons a2 as ih =>
    intro bs h a ha
    rw [List.mapM_cons] at h
    cases hfa : f a2 with
    | error e => rw [hfa] at h; simp [Bind.bind, Except.bind] at h
    | ok b =>
      rw [hfa] at h
      cases hrest : as.mapM f with
      | error e => rw [hrest] at h; simp [Bind.bind, Except.bind] at h
      | ok bs2 =>
        rcases List.mem_cons.mp ha with h2 | h2
        · subst h2; exact ⟨b, hfa⟩
        · exact ih bs2 hrest a h2

theorem uv_ne_mrc (c2 : String) (cols : List String) :
    Issue.uniqueness_violation c2 ≠ Issue.missing_required_columns cols :=
  fun h => Issue.noConfusion h

theorem uv_ne_moc (c2 c : String) :
    Issue.uniqueness_violation c2 ≠ Issue.missing_optional_column c :=
  fun h => Issue.noConfusion h

theorem uv_ne_wdt (c2 c e a : String) :
    Issue.uniqueness_violation c2 ≠ Issue.wrong_data_type c e a :=
  fun h => Issue.noConfusion h

theorem uv_ne_oor (c2 c : String) (m : Bool) (bd ob : ℚ) :
    Issue.uniqueness_violation c2 ≠ Issue.out_of_range c m bd ob :=
  fun h => Issue.noConfusion h

theorem uv_ne_icv (c2 c : String) (vs : List Cell) :
    Issue.uniqueness_violation c2 ≠ Issue.invalid_categorical_values c vs :=
  fun h => Issue.noConfusion h

theorem uv_not_mem_typeIssues (c2 c a : String) (p : ColProps) :
    Issue.uniqueness_violation c2 ∉ typeIssues c a p := by
  unfold typeIssues
  split
  · split
    · simp
    · simp [uv_ne_wdt]
  · simp

theorem uv_not_mem_minRangeIssues (c2 c : String) (cells : List Cell)
    (p : ColProps) :
    Issue.uniqueness_violation c2 ∉ minRangeIssues c cells p := by
  unfold minRangeIssues
  split
  · split
    · split
      · split
        · simp [uv_ne_oor]
        · simp
      · simp
    · simp
  · simp

theorem uv_not_mem_maxRangeIssues (c2 c : String) (cells : List Cell)
    (p : ColProps) :
    Issue.uniqueness_violation c2 ∉ maxRangeIssues c cells p := by
  unfold maxRangeIssues
  split
  · split
    · split
      · split
        · simp [uv_ne_oor]
        · simp
      · simp
    · simp
  · simp

theorem uv_not_mem_catIssues (c2 c : String) (cells : List Cell) (p : ColProps) :
    Issue.uniqueness_violation c2 ∉ catIssues c cells p := by
  unfold catIssues
  split
  · split
    · split
      · simp
      · simp [uv_ne_icv]
    · simp
  · simp

theorem uv_mem_uniqIssues (c2 c : String) (cells : List Cell) (p : ColProps) :
    Issue.uniqueness_violation c2 ∈ uniqIssues c cells p ↔
      (c2 = c ∧ p.unique = true ∧ ¬ cells.Nodup) := by
  unfold uniqIssues seriesIsUnique
  cases hu : p.unique with
  | false => simp
  | true =>
    by_cases hn : cells.Nodup
    · simp [hn]
    · simp [hn]

/-- A per-column block contains `uniqueness_violation c2` iff `c2` is the
block's own column, the column is present and `unique`-flagged, and its
cells (nulls identified) are not pairwise distinct. -/
theorem colCheckIssues_uniqueness_mem (t : Table) (c2 c : String) (p : ColProps)
    (b : List Issue) (h : colCheckIssues t c p = Except.ok b) :
    (Issue.uniqueness_violation c2 ∈ b ↔
      (c2 = c ∧ t.hasCol c = true ∧ p.unique = true ∧
        ¬ (t.colCells (t.colIdx c)).Nodup)) := by
  unfold colCheckIssues at h
  by_cases hc : t.hasCol c = false
  · rw [if_pos hc] at h
    by_cases hr : p.required
    · rw [if_pos hr] at h
      injection h with hb
      subst hb
      simp [hc]
    · rw [if_neg hr] at h
      injection h with hb
      subst hb
      simp [hc, uv_ne_moc]
  · rw [if_neg hc] at h
    have hc2 : t.hasCol c = true := by revert hc; cases t.hasCol c <;> simp
    by_cases hrr : rangeCheckRaises (t.colCells (t.colIdx c)) p = true
    · rw [if_pos hrr] at h
      exact absurd h (by simp)
    · rw [if_neg hrr] at h
      injection h with hb
      subst hb
      simp only [List.mem_append]
      constructor
      · rintro ((((h1 | h1) | h1) | h1) | h1)
        · exact absurd h1 (uv_not_mem_typeIssues c2 c _ p)
        · exact absurd h1 (uv_not_mem_minRangeIssues c2 c _ p)
        · exact absurd h1 (uv_not_mem_maxRangeIssues c2 c _ p)
        · exact absurd h1 (uv_not_mem_catIssues c2 c _ p)
        · rcases (uv_mem_uniqIssues c2 c _ p).mp h1 with ⟨he, hu, hn⟩
          exact ⟨he, hc2, hu, hn⟩
      · rintro ⟨he, _, hu, hn⟩
        exact Or.inr ((uv_mem_uniqIssues c2 c _ p).mpr ⟨he, hu, hn⟩)

/-- C5 (amended): for a `unique`-flagged column present in the table, the
Constraint Evaluator emits `uniqueness_violation` iff the column's values,
with all nulls identified as one value, are not pairwise distinct — so
repeated nulls alone do trigger the issue, since `Series.is_unique` is
`nunique(dropna=False) == len(self)`. -/
theorem validateSchema_uniqueness_iff (t : Table) (s : Schema) (c : String)
    (p : ColProps) (hmem : (c, p) ∈ s) (hpresent : t.hasCol c = true)
    (hunique : p.unique = true) (v : Bool) (issues : List Issue)
    (h : validateSchema t s = Except.ok (v, issues)) :
    Issue.uniqueness_violation c ∈ issues ↔
      ¬ (t.colCells (t.colIdx c)).Nodup := by
  unfold validateSchema at h
  cases hm : s.mapM (fun cp => colCheckIssues t cp.1 cp.2) with
  | error e => rw [hm] at h; simp [Bind.bind, Except.bind] at h
  | ok blocks =>
    rw [hm] at h
    simp only [Bind.bind, Except.bind, Except.ok.injEq, Prod.mk.injEq] at h
    obtain ⟨hv, hi⟩ := h
    subst hi
    rw [List.mem_append]
    constructor
    · rintro (hreq | hfl)
      · by_cases hre : (requiredMissing t s).isEmpty
        · rw [if_pos hre] at hreq; simp at hreq
        · rw [if_neg hre] at hreq
          rw [List.mem_singleton] at hreq
          exact absurd hreq (uv_ne_mrc c _)
      · rw [mapM_ok_flatten_mem _ s blocks hm] at hfl
        obtain ⟨⟨c2, p2⟩, hmem2, b, hok, hxb⟩ := hfl
        rw [colCheckIssues_uniqueness_mem t c c2 p2 b hok] at hxb
        obtain ⟨he, _, _, hn⟩ := hxb
        subst he
        exact hn
    · intro hn
      obtain ⟨b, hok⟩ := mapM_ok_forall _ s blocks hm (c, p) hmem
      refine Or.inr ?_
      rw [mapM_ok_flatten_mem _ s blocks hm]
      refine ⟨(c, p), hmem, b, hok, ?_⟩
      rw [colCheckIssues_uniqueness_mem t c c p b hok]
      exact ⟨rfl, hpresent, hunique, hn⟩

/-- C5 counterexample: a `unique` float column `[1, NaN, NaN]` has no
repeated non-null value, yet `validate_schema` emits a
`uniqueness_violation` (and fails), because `is_unique` counts the two
nulls as a repeated value. -/
theorem uniqueness_violation_on_repeated_nulls :
    validateSchema tUniqueNulls schemaUnique =
      Except.ok (false, [Issue.uniqueness_violation "u"])
    ∧ (∀ q : ℚ, (tUniqueNulls.colCells 0).count (Cell.num q) ≤ 1)
    ∧ (∀ s2 : String, (tUniqueNulls.colCells 0).count (Cell.str s2) ≤ 1) := by
  refine ⟨rfl, ?_, ?_⟩
  · intro q
    have hcol : tUniqueNulls.colCells 0 = [Cell.num 1, Cell.null, Cell.null] := rfl
    rw [hcol]
    simp [List.count_cons]
    split_ifs <;> simp
  · intro s2
    have hcol : tUniqueNulls.colCells 0 = [Cell.num 1, Cell.null, Cell.null] := rfl
    rw [hcol]
    simp [List.count_cons]

/-- Witness for the amended C5 at the `[1, NaN, NaN]` example. -/
theorem validateSchema_uniqueness_iff_witness :
    (Issue.uniqueness_violation "u" ∈ [Issue.uniqueness_violation "u"] ↔
      ¬ (tUniqueNulls.colCells (tUniqueNulls.colIdx "u")).Nodup) :=
  validateSchema_uniqueness_iff tUniqueNulls schemaUnique "u"
    { type? := some "numeric", unique := true } (by simp [schemaUnique])
    rfl rfl false [Issue.uniqueness_violation "u"] rfl


/-- C4 (amended): the only division-by-zero guard in the code is the
zero-numeric-columns case of the outlier detector, which then returns
zero outliers, zero percentage and no per-column entries regardless of the
row count; the zero-rows case is not guarded (see the counterexample). -/
theorem checkOutliers_no_numeric_columns (t : Table) (h : t.numericIdxs = []) :
    checkOutliers t = Except.ok ⟨0, 0, []⟩ := by
  unfold checkOutliers
  rw [h]
  simp

/-- C4 counterexample: on a zero-row table with one numeric column the
outlier detector raises `ZeroDivisionError` instead of returning, and the
duplicate and missing percentages are NaN (`none`), not zero. -/
theorem zero_rows_not_guarded :
    checkOutliers tEmptyNumCol = Except.error ()
    ∧ (checkDuplicates tEmptyNumCol).duplicate_percentage = none
    ∧ (checkMissingValues tEmptyNumCol).total_missing_percentage = none
    ∧ (none : Option ℚ) ≠ some 0 := by
  refine ⟨rfl, rfl, rfl, by simp⟩

/-- Witness for the amended C4 on a table with one object column. -/
theorem checkOutliers_no_numeric_columns_witness :
    checkOutliers tStrOnly = Except.ok ⟨0, 0, []⟩ :=
  checkOutliers_no_numeric_columns tStrOnly rfl

/-- C8: whenever the orchestrator returns, its `is_valid` is exactly the
conjunction of the Constraint Evaluator verdict, no critical missing and
no duplicates — the outlier stats do not appear in the equation, so
outliers alone never fail validation. -/
theorem validateData_is_valid_conjunction (t : Table) (s : Schema) (v : Bool)
    (r : ValidationResults) (h : validateData t s = Except.ok (v, r)) :
    v = (r.schema_valid && !(checkMissingValues t).has_critical_missing
          && !(checkDuplicates t).has_duplicates)
    ∧ r.missing_values = checkMissingValues t
    ∧ r.duplicates = checkDuplicates t := by
  unfold validateData at h
  cases hs : validateSchema t s with
  | error e => rw [hs] at h; simp [Bind.bind, Except.bind] at h
  | ok sv =>
    rw [hs] at h
    cases ho : checkOutliers t with
    | error e =>
      rw [ho] at h
      simp [Bind.bind, Except.bind] at h
    | ok o =>
      rw [ho] at h
      simp only [Bind.bind, Except.bind, Except.ok.injEq, Prod.mk.injEq] at h
      obtain ⟨hv, hr⟩ := h
      subst hr
      exact ⟨hv.symm, rfl, rfl⟩

/-- Witness for C8 on a clean one-row table and the empty schema. -/
theorem validateData_is_valid_conjunction_witness :
    ((true : Bool) = (ValidationResults.schema_valid
        ⟨true, [], ⟨0, 1, some 0, false, []⟩, ⟨false, 0, some 0, []⟩, ⟨0, 0, []⟩⟩
      && !(checkMissingValues tStrOnly).has_critical_missing
      && !(checkDuplicates tStrOnly).has_duplicates))
    ∧ ValidationResults.missing_values
        ⟨true, [], ⟨0, 1, some 0, false, []⟩, ⟨false, 0, some 0, []⟩, ⟨0, 0, []⟩⟩ =
        checkMissingValues tStrOnly
    ∧ ValidationResults.duplicates
        ⟨true, [], ⟨0, 1, some 0, false, []⟩, ⟨false, 0, some 0, []⟩, ⟨0, 0, []⟩⟩ =
        checkDuplicates tStrOnly :=
  validateData_is_valid_conjunction tStrOnly [] true
    ⟨true, [], ⟨0, 1, some 0, false, []⟩, ⟨false, 0, some 0, []⟩, ⟨0, 0, []⟩⟩
    (by
      have hm : checkMissingValues tStrOnly = ⟨0, 1, some 0, false, []⟩ := by
        norm_num [checkMissingValues, tStrOnly, Table.colMissingPct, Table.nrows,
          Table.ncols, missingCount, Table.colCells, colAt, List.range_succ,
          List.countP_cons, List.countP_nil]
      have hd : checkDuplicates tStrOnly = ⟨false, 0, some 0, []⟩ := by
        norm_num [checkDuplicates, dupFlags, dupFlagsGo, Table.nrows, tStrOnly,
          List.range_succ]
      unfold validateData
      rw [show validateSchema tStrOnly [] = Except.ok (true, []) from rfl]
      rw [show checkOutliers tStrOnly = Except.ok ⟨0, 0, []⟩ from rfl]
      simp only [Bind.bind, Except.bind, hm, hd]
      rfl)


theorem dedupRowsGo_subset : ∀ (rs seen : List (List Cell)) (x : List Cell),
    x ∈ dedupRowsGo seen rs → x ∈ rs := by
  intro rs
  induction rs with
  | nil => intro seen x h; simp [dedupRowsGo] at h
  | cons r rs2 ih =>
    intro seen x h
    unfold dedupRowsGo at h
    by_cases hc : seen.contains r = true
    · rw [if_pos hc] at h
      exact List.mem_cons_of_mem r (ih seen x h)
    · rw [if_neg hc] at h
      rcases List.mem_cons.mp h with h2 | h2
      · exact h2 ▸ List.mem_cons_self r rs2
      · exact List.mem_cons_of_mem r (ih (r :: seen) x h2)

theorem dedupRowsGo_complete : ∀ (rs seen : List (List Cell)) (x : List Cell),
    x ∈ rs → x ∈ seen ∨ x ∈ dedupRowsGo seen rs := by
  intro rs
  induction rs with
  | nil => intro seen x h; simp at h
  | cons r rs2 ih =>
    intro seen x hx
    unfold dedupRowsGo
    by_cases hc : seen.contains r = true
    · rw [if_pos hc]
      rcases List.mem_cons.mp hx with h2 | h2
      · subst h2; exact Or.inl (by rwa [List.elem_iff] at hc)
      · exact ih seen x h2
    · rw [if_neg hc]
      rcases List.mem_cons.mp hx with h2 | h2
      · subst h2; exact Or.inr (List.mem_cons_self x _)
      · rcases ih (r :: seen) x h2 with h3 | h3
        · rcases List.mem_cons.mp h3 with h4 | h4
          · subst h4; exact Or.inr (List.mem_cons_self x _)
          · exact Or.inl h4
        · exact Or.inr (List.mem_cons_of_mem r h3)

theorem dedupRows_mem_iff (rows : List (List Cell)) (x : List Cell) :
    x ∈ dedupRows rows ↔ x ∈ rows :=
  ⟨dedupRowsGo_subset rows [] x,
   fun h => (dedupRowsGo_complete rows [] x h).resolve_left (by simp)⟩

theorem dedupRowsGo_length_le : ∀ (rs seen : List (List Cell)),
    (dedupRowsGo seen rs).length ≤ rs.length := by
  intro rs
  induction rs with
  | nil => intro seen; simp [dedupRowsGo]
  | cons r rs2 ih =>
    intro seen
    unfold dedupRowsGo
    by_cases hc : seen.contains r = true
    · rw [if_pos hc]
      exact Nat.le_succ_of_le (ih seen)
    · rw [if_neg hc]
      simpa using ih (r :: seen)

theorem dupFlagsGo_all_false_dedup : ∀ (rs seen : List (List Cell)),
    (∀ b ∈ dupFlagsGo seen rs, b = false) → dedupRowsGo seen rs = rs := by
  intro rs
  induction rs with
  | nil => intro seen h; rfl
  | cons r rs2 ih =>
    intro seen h
    have h1 : seen.contains r = false := by
      have := h (seen.contains r) (by unfold dupFlagsGo; exact List.mem_cons_self _ _)
      exact this
    unfold dedupRowsGo
    rw [if_neg (by rw [h1]; simp)]
    rw [ih (r :: seen) (fun b hb => h b (by
      unfold dupFlagsGo
      exact List.mem_cons_of_mem _ hb))]

theorem fillColNulls_length (rows : List (List Cell)) (j : Nat) (v : Cell) :
    (fillColNulls rows j v).length = rows.length := by
  simp [fillColNulls]

theorem fillNumStep_length (rows : List (List Cell)) (j : Nat) :
    (fillNumStep rows j).length = rows.length := by
  unfold fillNumStep
  split
  · split
    · simp [fillColNulls]
    · rfl
  · rfl

theorem foldl_fillNumStep_length : ∀ (l : List Nat) (rows : List (List Cell)),
    (List.foldl fillNumStep rows l).length = rows.length := by
  intro l
  induction l with
  | nil => intro rows; rfl
  | cons j js ih =>
    intro rows
    rw [List.foldl_cons, ih (fillNumStep rows j), fillNumStep_length]

theorem fillCatStep_ok_length (rows : List (List Cell)) (j : Nat)
    (r : List (List Cell)) (h : fillCatStep rows j = Except.ok r) :
    r.length = rows.length := by
  unfold fillCatStep at h
  split at h
  · split at h
    · injection h with h2
      subst h2
      simp [fillColNulls]
    · exact absurd h (by simp)
  · injection h with h2
    subst h2
    rfl

theorem foldlM_fillCatStep_ok_length : ∀ (l : List Nat) (rows r : List (List Cell)),
    List.foldlM fillCatStep rows l = Except.ok r → r.length = rows.length := by
  intro l
  induction l with
  | nil =>
    intro rows r h
    simp only [List.foldlM_nil, pure, Except.pure, Except.ok.injEq] at h
    subst h; rfl
  | cons j js ih =>
    intro rows r h
    rw [List.foldlM_cons] at h
    cases hs : fillCatStep rows j with
    | error e => rw [hs] at h; simp [Bind.bind, Except.bind] at h
    | ok r2 =>
      rw [hs] at h
      simp only [Bind.bind, Except.bind] at h
      rw [ih r2 r h, fillCatStep_ok_length rows j r2 hs]

theorem clipStep_length (rows : List (List Cell)) (j : Nat) :
    (clipStep rows j).length = rows.length := by
  unfold clipStep
  split
  · simp
  · rfl

theorem foldl_clipStep_length : ∀ (l : List Nat) (rows : List (List Cell)),
    (List.foldl clipStep rows l).length = rows.length := by
  intro l
  induction l with
  | nil => intro rows; rfl
  | cons j js ih =>
    intro rows
    rw [List.foldl_cons, ih (clipStep rows j), clipStep_length]

theorem foldl_fixed_of {α β : Type} (f : β → α → β) :
    ∀ (l : List α) (b : β), (∀ a ∈ l, f b a = b) → l.foldl f b = b := by
  intro l
  induction l with
  | nil => intro b _; rfl
  | cons a l2 ih =>
    intro b h
    rw [List.foldl_cons, h a (List.mem_cons_self a l2)]
    exact ih b (fun a2 ha2 => h a2 (List.mem_cons_of_mem a ha2))

theorem foldlM_fixed_of {α β : Type} (f : β → α → Except Unit β) :
    ∀ (l : List α) (b : β), (∀ a ∈ l, f b a = Except.ok b) →
    l.foldlM f b = Except.ok b := by
  intro l
  induction l with
  | nil => intro b _; rfl
  | cons a l2 ih =>
    intro b h
    rw [List.foldlM_cons, h a (List.mem_cons_self a l2)]
    simp only [Bind.bind, Except.bind]
    exact ih b (fun a2 ha2 => h a2 (List.mem_cons_of_mem a ha2))

/-- No duplicates and no missing cells make every preprocessing step the
identity (outlier clipping disabled). -/
theorem preprocess_identity (t : Table) (dd hm : Bool)
    (hnd : (checkDuplicates t).duplicate_count = 0)
    (hnm : (checkMissingValues t).total_missing = 0) :
    preprocessData t dd hm false = Except.ok t := by
  have hflags : ∀ b ∈ dupFlags t.rows, b = false := by
    have h0 : true ∉ dupFlags t.rows := List.count_eq_zero.mp hnd
    intro b hb
    cases b
    · rfl
    · exact absurd hb h0
  have hded : dedupRows t.rows = t.rows :=
    dupFlagsGo_all_false_dedup t.rows [] hflags
  have hcol : ∀ j ∈ List.range t.ncols, missingCount (t.colCells j) = 0 := by
    intro j hj
    have hz := List.sum_eq_zero_iff.mp hnm
    exact hz _ (List.mem_map_of_mem _ hj)
  have hnum : List.foldl fillNumStep t.rows t.numericIdxs = t.rows := by
    apply foldl_fixed_of
    intro j hj
    unfold Table.numericIdxs at hj
    rw [List.mem_filter] at hj
    have hc := hcol j hj.1
    unfold Table.colCells at hc
    unfold fillNumStep
    rw [if_neg (by omega)]
  have hcat : List.foldlM fillCatStep t.rows t.catIdxs = Except.ok t.rows := by
    apply foldlM_fixed_of
    intro j hj
    unfold Table.catIdxs at hj
    rw [List.mem_filter] at hj
    have hc := hcol j hj.1
    unfold Table.colCells at hc
    unfold fillCatStep
    rw [if_neg (by omega)]
  unfold preprocessData
  cases dd <;> cases hm <;>
    simp [hded, hnum, hcat, Bind.bind, Except.bind, pure, Except.pure]

/-- Preprocessing preserves the column structure and never adds rows. -/
theorem preprocess_shape (t : Table) (dd hm ho : Bool) (t2 : Table)
    (h : preprocessData t dd hm ho = Except.ok t2) :
    t2.colNames = t.colNames ∧ t2.dtypes = t.dtypes ∧
      t2.rows.length ≤ t.rows.length := by
  have hlen1 : (if dd = true then dedupRows t.rows else t.rows).length ≤
      t.rows.length := by
    cases dd
    · simp
    · simpa [dedupRows] using dedupRowsGo_length_le t.rows []
  cases hm with
  | false =>
    unfold preprocessData at h
    simp only [Bool.false_eq_true, if_false, Bind.bind, Except.bind,
      Except.ok.injEq] at h
    subst h
    refine ⟨rfl, rfl, ?_⟩
    cases ho with
    | true =>
      simpa [foldl_clipStep_length] using hlen1
    | false =>
      simpa using hlen1
  | true =>
    unfold preprocessData at h
    simp only [eq_self_iff_true, if_true, Bind.bind, Except.bind] at h
    cases hfold : List.foldlM fillCatStep
        (List.foldl fillNumStep (if dd = true then dedupRows t.rows else t.rows)
          t.numericIdxs) t.catIdxs with
    | error e =>
      rw [hfold] at h
      simp at h
    | ok r3 =>
      rw [hfold] at h
      simp only [Except.ok.injEq] at h
      subst h
      refine ⟨rfl, rfl, ?_⟩
      have hr3 := foldlM_fillCatStep_ok_length t.catIdxs _ r3 hfold
      rw [foldl_fillNumStep_length] at hr3
      cases ho with
      | true =>
        show (if true = true then List.foldl clipStep r3 t.numericIdxs else r3).length ≤
          t.rows.length
        rw [if_pos rfl, foldl_clipStep_length, hr3]
        exact hlen1
      | false =>
        show (if false = true then List.foldl clipStep r3 t.numericIdxs else r3).length ≤
          t.rows.length
        rw [if_neg (by simp), hr3]
        exact hlen1

theorem colAt_fillColNulls_ne (rows : List (List Cell)) (j j2 : Nat) (v : Cell)
    (hne : j ≠ j2) : colAt (fillColNulls rows j v) j2 = colAt rows j2 := by
  unfold colAt fillColNulls
  rw [List.map_map]
  apply List.map_congr_left
  intro r _
  by_cases hc : (r.getD j Cell.null == Cell.null) = true
  · simp only [Function.comp_apply, if_pos hc]
    simp [List.getD, List.getElem?_set_ne hne]
  · simp only [Function.comp_apply, if_neg hc]

theorem colAt_fillNumStep_ne (rows : List (List Cell)) (j j2 : Nat)
    (hne : j ≠ j2) : colAt (fillNumStep rows j) j2 = colAt rows j2 := by
  unfold fillNumStep
  split
  · split
    · exact colAt_fillColNulls_ne rows j j2 _ hne
    · rfl
  · rfl

theorem colAt_foldl_fillNum_ne : ∀ (l : List Nat) (rows : List (List Cell))
    (j2 : Nat), (∀ j ∈ l, j ≠ j2) →
    colAt (List.foldl fillNumStep rows l) j2 = colAt rows j2 := by
  intro l
  induction l with
  | nil => intro rows j2 _; rfl
  | cons j js ih =>
    intro rows j2 h
    rw [List.foldl_cons, ih (fillNumStep rows j) j2
      (fun a ha => h a (List.mem_cons_of_mem j ha))]
    exact colAt_fillNumStep_ne rows j j2 (h j (List.mem_cons_self j js))

theorem foldl_modePick_isSome : ∀ (l : List Cell) (acc : Option Cell),
    (acc.isSome = true ∨ l ≠ []) → (l.foldl modePick acc).isSome = true := by
  intro l
  induction l with
  | nil =>
    intro acc h
    exact h.resolve_right (by simp)
  | cons c cs ih =>
    intro acc _
    rw [List.foldl_cons]
    apply ih
    left
    unfold modePick
    cases acc with
    | none => rfl
    | some a =>
      dsimp only
      by_cases hlt : cellLtB c a = true
      · rw [if_pos hlt]; rfl
      · rw [if_neg hlt]; rfl

theorem seriesModeFirst_isSome_iff (cells : List Cell) :
    (seriesModeFirst cells).isSome = true ↔ ∃ c ∈ cells, c ≠ Cell.null := by
  unfold seriesModeFirst
  cases hnn : cells.filter (fun c => !(c == Cell.null)) with
  | nil =>
    simp only [Option.isSome_none]
    constructor
    · intro h; exact absurd h (by simp)
    · rintro ⟨c, hc, hne⟩
      have : c ∈ cells.filter (fun c => !(c == Cell.null)) := by
        rw [List.mem_filter]
        refine ⟨hc, ?_⟩
        simpa using hne
      rw [hnn] at this
      exact absurd this (by simp)
  | cons c0 cs0 =>
    constructor
    · intro _
      have hc0 : c0 ∈ cells.filter (fun c => !(c == Cell.null)) := by
        rw [hnn]; exact List.mem_cons_self c0 cs0
      rw [List.mem_filter] at hc0
      exact ⟨c0, hc0.1, by simpa using hc0.2⟩
    · intro _
      apply foldl_modePick_isSome
      right
      have hmax : ((c0 :: cs0).map (fun c => (c0 :: cs0).count c)).max?.isSome = true := by
        cases hq : ((c0 :: cs0).map (fun c => (c0 :: cs0).count c)).max? with
        | none =>
          rw [List.max?_eq_none_iff] at hq
          exact absurd hq (by simp)
        | some m => rfl
      obtain ⟨M, hM⟩ := Option.isSome_iff_exists.mp hmax
      have hMmem := List.max?_mem (fun x y => max_choice x y) hM
      obtain ⟨c1, hc1, hcnt⟩ := List.mem_map.mp hMmem
      have hcand : c1 ∈ (c0 :: cs0).dedup.filter
          (fun c => (c0 :: cs0).count c == ((c0 :: cs0).map
            (fun c => (c0 :: cs0).count c)).max?.getD 0) := by
        rw [List.mem_filter]
        refine ⟨List.mem_dedup.mpr hc1, ?_⟩
        rw [hM]
        simpa using hcnt
      exact List.ne_nil_of_mem hcand

theorem missingCount_pos_iff (cells : List Cell) :
    missingCount cells > 0 ↔ ∃ c ∈ cells, c = Cell.null := by
  unfold missingCount
  rw [gt_iff_lt, List.countP_pos_iff]
  constructor
  · rintro ⟨c, hc, hb⟩
    exact ⟨c, hc, by simpa using hb⟩
  · rintro ⟨c, hc, hb⟩
    exact ⟨c, hc, by simpa using hb⟩

theorem foldlM_fillCatStep_isOk_iff : ∀ (l : List Nat) (rows : List (List Cell)),
    List.Pairwise (· ≠ ·) l →
    ((∃ r, List.foldlM fillCatStep rows l = Except.ok r) ↔
      ∀ j ∈ l, missingCount (colAt rows j) > 0 →
        (seriesModeFirst (colAt rows j)).isSome = true) := by
  intro l
  induction l with
  | nil =>
    intro rows _
    constructor
    · intro _ j hj; exact absurd hj (by simp)
    · intro _; exact ⟨rows, rfl⟩
  | cons j js ih =>
    intro rows hpw
    have hpw1 : ∀ j2 ∈ js, j ≠ j2 := (List.pairwise_cons.mp hpw).1
    have hpw2 := (List.pairwise_cons.mp hpw).2
    rw [List.foldlM_cons]
    by_cases hmc : missingCount (colAt rows j) > 0
    · cases hmode : seriesModeFirst (colAt rows j) with
      | none =>
        have hstep : fillCatStep rows j = Except.error () := by
          unfold fillCatStep
          rw [if_pos hmc, hmode]
        rw [hstep]
        simp only [Bind.bind, Except.bind]
        constructor
        · rintro ⟨r, hr⟩
          exact absurd hr (by simp)
        · intro hall
          have h2 := hall j (List.mem_cons_self j js) hmc
          rw [hmode] at h2
          exact absurd h2 (by simp)
      | some m =>
        have hstep : fillCatStep rows j = Except.ok (fillColNulls rows j m) := by
          unfold fillCatStep
          rw [if_pos hmc, hmode]
        rw [hstep]
        simp only [Bind.bind, Except.bind]
        rw [ih (fillColNulls rows j m) hpw2]
        constructor
        · intro hall j2 hj2
          rcases List.mem_cons.mp hj2 with h2 | h2
          · subst h2
            intro _
            rw [hmode]
            rfl
          · rw [← colAt_fillColNulls_ne rows j j2 m (hpw1 j2 h2)]
            exact hall j2 h2
        · intro hall j2 hj2
          rw [colAt_fillColNulls_ne rows j j2 m (hpw1 j2 hj2)]
          exact hall j2 (List.mem_cons_of_mem j hj2)
    · have hstep : fillCatStep rows j = Except.ok rows := by
        unfold fillCatStep
        rw [if_neg hmc]
      rw [hstep]
      simp only [Bind.bind, Except.bind]
      rw [ih rows hpw2]
      constructor
      · intro hall j2 hj2
        rcases List.mem_cons.mp hj2 with h2 | h2
        · subst h2
          intro hc
          exact absurd hc hmc
        · exact hall j2 h2
      · intro hall j2 hj2
        exact hall j2 (List.mem_cons_of_mem j hj2)

theorem not_numeric_and_cat (d : String) :
    ¬ (isNumericDtype d = true ∧ isCatDtype d = true) := by
  rintro ⟨h1, h2⟩
  simp only [isNumericDtype, isCatDtype, Bool.or_eq_true, beq_iff_eq] at h1 h2
  rcases h1 with ((rfl | rfl) | rfl) | rfl <;>
    rcases h2 with h2 | h2 <;> exact absurd h2 (by decide)

theorem exists_colAt_dedup_iff (rows : List (List Cell)) (j : Nat)
    (P : Cell → Prop) :
    (∃ c ∈ colAt (dedupRows rows) j, P c) ↔ (∃ c ∈ colAt rows j, P c) := by
  simp only [colAt, List.mem_map]
  constructor
  · rintro ⟨c, ⟨r, hr, rfl⟩, hP⟩
    exact ⟨_, ⟨r, (dedupRows_mem_iff rows r).mp hr, rfl⟩, hP⟩
  · rintro ⟨c, ⟨r, hr, rfl⟩, hP⟩
    exact ⟨_, ⟨r, (dedupRows_mem_iff rows r).mpr hr, rfl⟩, hP⟩

theorem bind_ok_exists {X : Type} (E : Except Unit X) (g : X → Table) :
    (∃ t2, (E >>= fun x => Except.ok (g x)) = Except.ok t2) ↔
      ∃ r, E = Except.ok r := by
  cases E with
  | error e => simp [Bind.bind, Except.bind]
  | ok r => simp [Bind.bind, Except.bind]

/-- Success of the missing-value handling step, characterised on the input
table. -/
theorem preprocess_handle_missing_ok_iff (t : Table) (dd ho : Bool) :
    (∃ t2, preprocessData t dd true ho = Except.ok t2) ↔
      (∀ j ∈ t.catIdxs, (∃ c ∈ t.colCells j, c = Cell.null) →
        (∃ c ∈ t.colCells j, c ≠ Cell.null)) := by
  have hpw : List.Pairwise (· ≠ ·) t.catIdxs := by
    have h1 : List.Pairwise (· < ·) t.catIdxs :=
      List.Pairwise.sublist (List.filter_sublist _) (List.pairwise_lt_range _)
    exact h1.imp (fun h => Nat.ne_of_lt h)
  have main : ∀ rows0 : List (List Cell),
      (∀ j : Nat, (∃ c ∈ colAt rows0 j, c = Cell.null) ↔
        (∃ c ∈ colAt t.rows j, c = Cell.null)) →
      (∀ j : Nat, (∃ c ∈ colAt rows0 j, c ≠ Cell.null) ↔
        (∃ c ∈ colAt t.rows j, c ≠ Cell.null)) →
      ((∃ r, List.foldlM fillCatStep
          (List.foldl fillNumStep rows0 t.numericIdxs) t.catIdxs = Except.ok r) ↔
        (∀ j ∈ t.catIdxs, (∃ c ∈ t.colCells j, c = Cell.null) →
          (∃ c ∈ t.colCells j, c ≠ Cell.null))) := by
    intro rows0 hinv1 hinv2
    rw [foldlM_fillCatStep_isOk_iff _ _ hpw]
    have hdis : ∀ j ∈ t.catIdxs, ∀ j2 ∈ t.numericIdxs, j2 ≠ j := by
      intro j hj j2 hj2 heq
      subst heq
      unfold Table.numericIdxs at hj2
      unfold Table.catIdxs at hj
      rw [List.mem_filter] at hj2 hj
      exact not_numeric_and_cat _ ⟨hj2.2, hj.2⟩
    have hcoleq : ∀ j ∈ t.catIdxs,
        colAt (List.foldl fillNumStep rows0 t.numericIdxs) j = colAt rows0 j :=
      fun j hj => colAt_foldl_fillNum_ne t.numericIdxs rows0 j (hdis j hj)
    constructor
    · intro hall j hj h1
      have h2 : ∃ c ∈ colAt rows0 j, c = Cell.null := (hinv1 j).mpr h1
      have h3 : missingCount (colAt (List.foldl fillNumStep rows0
          t.numericIdxs) j) > 0 := by
        rw [hcoleq j hj, missingCount_pos_iff]
        exact h2
      have h4 := hall j hj h3
      rw [hcoleq j hj, seriesModeFirst_isSome_iff] at h4
      exact (hinv2 j).mp h4
    · intro hall j hj h1
      rw [hcoleq j hj] at h1 ⊢
      rw [missingCount_pos_iff] at h1
      rw [seriesModeFirst_isSome_iff]
      exact (hinv2 j).mpr (hall j hj ((hinv1 j).mp h1))
  unfold preprocessData
  simp only [eq_self_iff_true, if_true]
  rw [bind_ok_exists]
  cases dd with
  | false =>
    simp only [Bool.false_eq_true, if_false]
    exact main t.rows (fun j => Iff.rfl) (fun j => Iff.rfl)
  | true =>
    simp only [eq_self_iff_true, if_true]
    exact main (dedupRows t.rows)
      (fun j => exists_colAt_dedup_iff t.rows j _)
      (fun j => exists_colAt_dedup_iff t.rows j _)

/-- C9: on a table with zero duplicate rows and zero missing cells,
`preprocess_data` with outlier handling disabled returns the input table
unchanged; and whenever `preprocess_data` returns, the result has the same
column names and dtypes and at most as many rows as the input (only
duplicate removal shrinks it). -/
theorem preprocessData_roundtrip_and_shape :
    (∀ (t : Table) (dd hm : Bool),
      (checkDuplicates t).duplicate_count = 0 →
      (checkMissingValues t).total_missing = 0 →
      preprocessData t dd hm false = Except.ok t)
    ∧ (∀ (t : Table) (dd hm ho : Bool) (t2 : Table),
      preprocessData t dd hm ho = Except.ok t2 →
      t2.colNames = t.colNames ∧ t2.dtypes = t.dtypes ∧
        t2.rows.length ≤ t.rows.length) :=
  ⟨preprocess_identity, preprocess_shape⟩

/-- Witness for C9 on a clean one-row table. -/
theorem preprocessData_roundtrip_and_shape_witness :
    preprocessData tStrOnly true true false = Except.ok tStrOnly
    ∧ (tStrOnly.colNames = tStrOnly.colNames ∧ tStrOnly.dtypes = tStrOnly.dtypes ∧
        tStrOnly.rows.length ≤ tStrOnly.rows.length) := by
  have h1 := preprocessData_roundtrip_and_shape.1 tStrOnly true true rfl rfl
  exact ⟨h1,
    preprocessData_roundtrip_and_shape.2 tStrOnly true true false tStrOnly h1⟩

/-- C10: `preprocess_data` with `handle_missing=true` returns a table iff
every object/category column that contains a null cell also contains a
non-null cell (a property unchanged by duplicate removal); a textual
column that is entirely null makes `mode()[0]` raise, modelled as
`Except.error`, as the all-null two-row example shows. -/
theorem preprocessData_mode_imputation_precondition :
    (∀ (t : Table) (dd ho : Bool),
      (∃ t2, preprocessData t dd true ho = Except.ok t2) ↔
        (∀ j ∈ t.catIdxs, (∃ c ∈ t.colCells j, c = Cell.null) →
          (∃ c ∈ t.colCells j, c ≠ Cell.null)))
    ∧ preprocessData tAllNullStr true true false = Except.error () :=
  ⟨preprocess_handle_missing_ok_iff, rfl⟩

/-- Witness for C10 on a table satisfying the precondition. -/
theorem preprocessData_mode_imputation_precondition_witness :
    ∃ t2, preprocessData tStrOnly true true false = Except.ok t2 :=
  (preprocessData_mode_imputation_precondition.1 tStrOnly true false).mpr (by
    intro j hj h1
    have hcat : tStrOnly.catIdxs = [0] := rfl
    rw [hcat] at hj
    rw [List.mem_singleton] at hj
    subst hj
    refine ⟨Cell.str "a", ?_, by simp⟩
    show Cell.str "a" ∈ colAt tStrOnly.rows 0
    simp [tStrOnly, colAt])
